import Mathlib

/-!
Verification of the `date_managers` repository (files `date_managers.py`,
`date_range_handlers.py`, `exceptions.py`) against its natural-language
specification.

The Python code is shallowly embedded: calendar dates become a `Date`
structure over `Int` fields with Python `datetime` semantics (lexicographic
comparison, proleptic Gregorian calendar, `toordinal` as the closed-form
CPython day count), `dateutil.relativedelta` arithmetic becomes explicit
year/month normalisation with day clamping, Python strings become `List Char`
manipulations, and each raising code path returns an `Except` error naming
the Python exception class that is raised.
-/

namespace DateManagers

set_option maxRecDepth 2000

/-! ### Calendar primitives (Python `datetime` / `dateutil` semantics) -/

/-- Gregorian leap-year test, as in Python `calendar.isleap`. -/
def isLeap (y : Int) : Bool := y % 4 == 0 && (y % 100 != 0 || y % 400 == 0)

/-- Length of a month, as in Python `calendar.monthrange(y, m)[1]`.
Months outside 1..12 never arise on valid dates; the fallthrough value 31
keeps the function total. -/
def daysInMonth (y m : Int) : Int :=
  if m = 2 then (if isLeap y then 29 else 28)
  else if m = 4 ∨ m = 6 ∨ m = 9 ∨ m = 11 then 30 else 31

/-- A calendar date. Mirrors Python `datetime.datetime` restricted to its
date part (the repository never sets a time of day). -/
structure Date where
  year : Int
  month : Int
  day : Int
deriving DecidableEq, Repr

/-- The constraint Python's `datetime` constructor enforces (dropping the
year-9999 upper bound, which no claim exercises). -/
def Date.valid (d : Date) : Prop :=
  1 ≤ d.year ∧ 1 ≤ d.month ∧ d.month ≤ 12 ∧ 1 ≤ d.day ∧ d.day ≤ daysInMonth d.year d.month

instance (d : Date) : Decidable d.valid :=
  inferInstanceAs (Decidable (_ ∧ _ ∧ _ ∧ _ ∧ _))

/-- Python `datetime` comparison is lexicographic on (year, month, day). -/
def Date.le (a b : Date) : Prop :=
  a.year < b.year ∨ (a.year = b.year ∧
    (a.month < b.month ∨ (a.month = b.month ∧ a.day ≤ b.day)))

/-- Strict lexicographic (Python `<`) comparison. -/
def Date.lt (a b : Date) : Prop :=
  a.year < b.year ∨ (a.year = b.year ∧
    (a.month < b.month ∨ (a.month = b.month ∧ a.day < b.day)))

instance (a b : Date) : Decidable (Date.le a b) :=
  inferInstanceAs (Decidable (_ ∨ _))

instance (a b : Date) : Decidable (Date.lt a b) :=
  inferInstanceAs (Decidable (_ ∨ _))

/-- Days in all years before `y`: CPython `datetime._days_before_year`. -/
def dBY (y : Int) : Int := 365*(y-1) + (y-1)/4 - (y-1)/100 + (y-1)/400

/-- CPython's `_DAYS_BEFORE_MONTH` table as a function of the month. -/
def dBMbase (m : Int) : Int :=
  if m ≤ 1 then 0 else if m = 2 then 31 else if m = 3 then 59 else if m = 4 then 90
  else if m = 5 then 120 else if m = 6 then 151 else if m = 7 then 181 else if m = 8 then 212
  else if m = 9 then 243 else if m = 10 then 273 else if m = 11 then 304 else 334

/-- Days in year `y` preceding month `m`: CPython `datetime._days_before_month`
(the `_DAYS_BEFORE_MONTH` table plus the leap adjustment). -/
def dBM (y m : Int) : Int :=
  dBMbase m + (if 2 < m ∧ isLeap y = true then 1 else 0)

/-- CPython `datetime.date.toordinal`: day number with 0001-01-01 as day 1. -/
def toOrd (d : Date) : Int := dBY d.year + dBM d.year d.month + d.day

/-- Python `date.weekday()`: Monday = 0 .. Sunday = 6 (0001-01-01 is a Monday). -/
def weekday (d : Date) : Int := (toOrd d - 1) % 7

/-- Proof helper: ordinal of day 0 of the month with absolute month index
`t` (counting `12 * year + (month - 1)`). -/
def monthStart (t : Int) : Int := dBY (t / 12) + dBM (t / 12) (t % 12 + 1)

/-- Calendar successor of a date (the effect of `+ timedelta(days=1)`). -/
def nextDay (d : Date) : Date :=
  if d.day < daysInMonth d.year d.month then ⟨d.year, d.month, d.day + 1⟩
  else if d.month < 12 then ⟨d.year, d.month + 1, 1⟩
  else ⟨d.year + 1, 1, 1⟩

/-- Calendar predecessor of a date (the effect of `- timedelta(days=1)`). -/
def prevDay (d : Date) : Date :=
  if 1 < d.day then ⟨d.year, d.month, d.day - 1⟩
  else if 1 < d.month then ⟨d.year, d.month - 1, daysInMonth d.year (d.month - 1)⟩
  else ⟨d.year - 1, 12, 31⟩

/-- `d + timedelta(days=n)` for `n ≥ 0`, as iterated calendar successor
(this agrees with CPython's ordinal addition on valid dates). -/
def addDays (d : Date) : Nat → Date
  | 0 => d
  | n+1 => nextDay (addDays d n)

/-- `d - timedelta(days=n)` for `n ≥ 0`, as iterated calendar predecessor. -/
def subDays (d : Date) : Nat → Date
  | 0 => d
  | n+1 => prevDay (subDays d n)

/-- `d + timedelta(days=n)` for a possibly negative `n`. -/
def addDaysInt (d : Date) (n : Int) : Date :=
  if 0 ≤ n then addDays d n.toNat else subDays d (-n).toNat

/-- `d + relativedelta(months=n)` (dateutil): shift the month count and clamp
the day to the destination month length. dateutil normalises `months` into a
years part and a months part in `-11..11` and then adjusts once; the net
effect is euclidean arithmetic on the total month count. -/
def addMonths (d : Date) (n : Int) : Date :=
  ⟨(12 * d.year + (d.month - 1) + n) / 12,
   (12 * d.year + (d.month - 1) + n) % 12 + 1,
   min d.day (daysInMonth ((12 * d.year + (d.month - 1) + n) / 12)
     ((12 * d.year + (d.month - 1) + n) % 12 + 1))⟩

/-- `d + relativedelta(years=n)` (dateutil): shift the year and clamp the day
(February 29 becomes February 28 in a non-leap destination year). -/
def addYears (d : Date) (n : Int) : Date :=
  ⟨d.year + n, d.month, min d.day (daysInMonth (d.year + n) d.month)⟩

/-! ### Python string primitives

The repository runs ASCII text through `str.lower`, `str.strip`,
`str.split`, `str.replace`, `str.endswith` and `int(...)`; these are
embedded over `List Char`. -/

/-- Python whitespace characters recognised by `str.strip`. -/
def isPySpace (c : Char) : Bool :=
  decide (c = ' ') || decide (c = '\t') || decide (c = '\n') || decide (c = '\r') ||
  decide (c = '\x0b') || decide (c = '\x0c')

/-- ASCII lower-casing of one character (`str.lower`; inputs are ASCII). -/
def asciiLower (c : Char) : Char :=
  if 'A' ≤ c ∧ c ≤ 'Z' then Char.ofNat (c.toNat + 32) else c

/-- Python `s.lower()` on a character list. -/
def pyLower (l : List Char) : List Char := l.map asciiLower

/-- Python `s.strip()` on a character list. -/
def pyStrip (l : List Char) : List Char :=
  ((l.dropWhile isPySpace).reverse.dropWhile isPySpace).reverse

/-- Python `s.strip()` as a `String` operation. -/
def pyStripStr (s : String) : String := String.mk (pyStrip s.data)

/-- `s.lower().strip()` as applied to every parsed phrase. -/
def pyNormalize (s : String) : String := String.mk (pyStrip (pyLower s.data))

/-- Does `re.search("[a-z]+", s)` find a match after lower-casing, i.e. is
there any ASCII letter in the lowered text. -/
def hasAsciiLetter (l : List Char) : Bool := l.any fun c => decide ('a' ≤ c ∧ c ≤ 'z')

/-- Worker for Python `s.split(sep)` with a one-character separator. -/
def pySplitAux (sep : Char) : List Char → List Char → List (List Char)
  | [], acc => [acc.reverse]
  | c :: rest, acc =>
    if c = sep then acc.reverse :: pySplitAux sep rest [] else pySplitAux sep rest (c :: acc)

/-- Python `s.split(sep)` with a one-character separator. -/
def pySplitStr (s : String) (sep : Char) : List String :=
  (pySplitAux sep s.data []).map String.mk

/-- Python `s.replace(a, b)` for one-character `a` and `b`. -/
def pyReplaceChar (s : String) (a b : Char) : String :=
  String.mk (s.data.map fun c => if c = a then b else c)

/-- Python `s.replace(c, "")` for a one-character pattern: drops every
occurrence (this is what `time_bucket.replace("s", "")` does). -/
def removeChar (s : String) (c : Char) : String :=
  String.mk (s.data.filter fun x => decide (¬ x = c))

/-- Does the text contain the character (Python `re.search(r"\_", s)` for
underscore amounts to containment). -/
def containsChar (s : String) (c : Char) : Bool := s.data.any fun x => decide (x = c)

/-- Value of a decimal digit character. -/
def digitVal (c : Char) : Int := (c.toNat : Int) - 48

/-- Value of a list of decimal digit characters. -/
def digitsVal (l : List Char) : Int := l.foldl (fun a c => a * 10 + digitVal c) 0

/-- Python `int(s)`: optional surrounding whitespace, an optional sign, then
a nonempty run of decimal digits. (`none` models the `ValueError` that
`int` raises otherwise. Digit-group underscores cannot occur here because
every argument is a piece of an underscore-split.) -/
def pyInt (s : String) : Option Int :=
  match pyStrip s.data with
  | '-' :: rest =>
    if rest ≠ [] ∧ rest.all Char.isDigit = true then some (-(digitsVal rest)) else none
  | '+' :: rest =>
    if rest ≠ [] ∧ rest.all Char.isDigit = true then some (digitsVal rest) else none
  | rest =>
    if rest ≠ [] ∧ rest.all Char.isDigit = true then some (digitsVal rest) else none

/-! ### Error kinds

One constructor per exception class the code can raise: the four classes of
`exceptions.py`, Python's built-in `TypeError`, and Python's built-in
`ValueError` (raised by `int(...)`, by tuple unpacking, and by
`datetime.strptime`/the `datetime` constructor). Messages are not modelled;
the claims only discuss error kinds. -/

inductive PyErr where
  | typeError
  | dateValueError
  | timeIntervalError
  | cadenceTimeBucketError
  | timeBucketError
  | valueError
deriving DecidableEq, Repr

/-! ### Phrase handlers (`date_managers.py`)

Python mutates `self.cadence` / `self.time_bucket` progressively; the
embedding threads the pair of optional fields explicitly. A cadence field
holds either the literal integer the code assigns (`Sum.inl`) or the raw
string segment later coerced with `int(...)` (`Sum.inr`). -/

/-- Embeds `PastDatePhraseHandler.phrase_to_date` (src/date_managers.py,
lines 187-225), for string inputs (the `isinstance` arm of the `TypeError`
check is vacuous for strings). -/
def PastDatePhraseHandler.phrase_to_date (date_value : String) :
    Except PyErr (Int × String) :=
  if ¬ hasAsciiLetter (pyLower date_value.data) = true then .error .typeError
  else
    let v := pyNormalize date_value
    let st : Option (Int ⊕ String) × Option String :=
      if v ∈ ["yesterday", "last_week", "last_month", "last_year"] then (some (Sum.inl 1), some v)
      else if v ∈ ["today", "this_week", "this_year", "this_month"] then (some (Sum.inl 0), some v)
      else (none, none)
    let step : Except PyErr (Option (Int ⊕ String) × Option String) :=
      if containsChar v '_' = true ∧ st.2 = none then
        let parts := pySplitStr v '_'
        if parts.length ≠ 3 ∨ parts.get? 2 ≠ some "ago" then .error .dateValueError
        else
          match parts with
          | [a, u, _] =>
            .ok (some (Sum.inr a), some (if u.data.getLast? = some 's' then removeChar u 's' else u))
          | _ => .ok st
      else .ok st
    match step with
    | .error e => .error e
    | .ok (some (Sum.inl n), some b) => .ok (n, pyStripStr b)
    | .ok (some (Sum.inr a), some b) =>
      match pyInt a with
      | some n => .ok (n, pyStripStr b)
      | none => .error .valueError
    | .ok _ => .error .cadenceTimeBucketError

/-- Embeds `IntervalDatePhraseHandler.phrase_to_date` (src/date_managers.py,
lines 231-266). Note two source quirks kept intact: the two-part check runs
on the RAW input with spaces turned into underscores, while the assignment
splits the lowered-stripped text on underscores only (so a space-separated
two-part spec reaches the assignment and fails tuple unpacking with a
built-in `ValueError`); and a literal match does not stop the later
branches. -/
def IntervalDatePhraseHandler.phrase_to_date (date_value : String) :
    Except PyErr (Int × String) :=
  if ¬ hasAsciiLetter (pyLower date_value.data) = true then .error .typeError
  else
    let v := pyNormalize date_value
    let st : Option (Int ⊕ String) × Option String :=
      if v ∈ ["day", "yearly", "weekly", "monthly"] then (some (Sum.inl 1), some v)
      else (none, none)
    if 2 < (pySplitStr v '_').length ∧ st.2 = none then .error .timeIntervalError
    else
      let step : Except PyErr (Option (Int ⊕ String) × Option String) :=
        if (pySplitStr (pyReplaceChar date_value ' ' '_') '_').length = 2 then
          match pySplitStr v '_' with
          | [a, b] => .ok (some (Sum.inr a), some b)
          | _ => .error .valueError
        else .ok st
      match step with
      | .error e => .error e
      | .ok (some (Sum.inl n), some b) => .ok (n, pyStripStr b)
      | .ok (some (Sum.inr a), some b) =>
        match pyInt a with
        | some n => .ok (n, pyStripStr b)
        | none => .error .valueError
      | .ok _ => .error .cadenceTimeBucketError

/-! ### Interval strategies (`date_managers.py` classes) -/

/-- `DayInterval.get_start_date`: identity (daily buckets never align). -/
def DayInterval.get_start_date (time_bucket : String) (start_date : Date) : Date :=
  start_date

/-- `DayInterval.add_interval`: `date_value + relativedelta(days=cadence)`. -/
def DayInterval.add_interval (date_value : Date) (cadence : Int) : Date :=
  addDaysInt date_value cadence

/-- `DayInterval.subtract_interval`: `date_value - relativedelta(days=cadence)`. -/
def DayInterval.subtract_interval (date_value : Date) (cadence : Int) : Date :=
  addDaysInt date_value (-cadence)

/-- `WeekInterval.get_start_date` (src/date_managers.py, lines 148-154):
for the listed buckets, a Sunday is returned unchanged and any other day
steps back `weekday + 1` days. -/
def WeekInterval.get_start_date (time_bucket : String) (start_date : Date) : Date :=
  if time_bucket ∈ ["weekly", "last_week", "this_week"] then
    if weekday start_date = 6 then start_date
    else addDaysInt start_date (-(weekday start_date + 1))
  else start_date

/-- `WeekInterval.add_interval`: `date_value + relativedelta(weeks=cadence)`. -/
def WeekInterval.add_interval (date_value : Date) (cadence : Int) : Date :=
  addDaysInt date_value (7 * cadence)

/-- `WeekInterval.subtract_interval`: `date_value - relativedelta(weeks=cadence)`. -/
def WeekInterval.subtract_interval (date_value : Date) (cadence : Int) : Date :=
  addDaysInt date_value (-(7 * cadence))

/-- `MonthInterval.get_start_date` (src/date_managers.py, lines 127-131):
note the bare bucket word "month" IS in the alignment list. -/
def MonthInterval.get_start_date (time_bucket : String) (start_date : Date) : Date :=
  if time_bucket ∈ ["monthly", "month", "last_month", "this_month"] then
    { start_date with day := 1 }
  else start_date

/-- `MonthInterval.add_interval`: `date_value + relativedelta(months=cadence)`. -/
def MonthInterval.add_interval (date_value : Date) (cadence : Int) : Date :=
  addMonths date_value cadence

/-- `MonthInterval.subtract_interval`: `date_value - relativedelta(months=cadence)`. -/
def MonthInterval.subtract_interval (date_value : Date) (cadence : Int) : Date :=
  addMonths date_value (-cadence)

/-- `YearInterval.get_start_date` (src/date_managers.py, lines 100-104):
the bare bucket word "year" is NOT in the alignment list. -/
def YearInterval.get_start_date (time_bucket : String) (start_date : Date) : Date :=
  if time_bucket ∈ ["yearly", "last_year", "this_year"] then
    { start_date with month := 1, day := 1 }
  else start_date

/-- `YearInterval.add_interval` (src/date_managers.py, lines 106-114):
`date_value + relativedelta(years=cadence)`. Its docstring promises that
February 29 maps to March 1 in a non-leap destination year, but
`relativedelta` clamps to February 28 instead. -/
def YearInterval.add_interval (date_value : Date) (cadence : Int) : Date :=
  addYears date_value cadence

/-- `YearInterval.subtract_interval`: `date_value - relativedelta(years=cadence)`. -/
def YearInterval.subtract_interval (date_value : Date) (cadence : Int) : Date :=
  addYears date_value (-cadence)

/-! ### Strategy factory, resolver and iterator (`date_managers.py`) -/

/-- The four canonical units. -/
inductive RootBucket where
  | day
  | week
  | month
  | year
deriving DecidableEq, Repr

/-- The object `DateHandlerFactory.get_date_handler` returns: which
`*Interval` class was instantiated, with the verbatim `time_bucket` string
and the cadence it was constructed with. -/
structure DateHandler where
  root : RootBucket
  time_bucket : String
  cadence : Int
deriving DecidableEq, Repr

/-- Dispatch of `get_start_date` through the class the factory chose. -/
def DateHandler.get_start_date (h : DateHandler) (start_date : Date) : Date :=
  match h.root with
  | .day => DayInterval.get_start_date h.time_bucket start_date
  | .week => WeekInterval.get_start_date h.time_bucket start_date
  | .month => MonthInterval.get_start_date h.time_bucket start_date
  | .year => YearInterval.get_start_date h.time_bucket start_date

/-- Dispatch of `add_interval` through the class the factory chose. -/
def DateHandler.add_interval (h : DateHandler) (date_value : Date) (cadence : Int) : Date :=
  match h.root with
  | .day => DayInterval.add_interval date_value cadence
  | .week => WeekInterval.add_interval date_value cadence
  | .month => MonthInterval.add_interval date_value cadence
  | .year => YearInterval.add_interval date_value cadence

/-- Dispatch of `subtract_interval` through the class the factory chose. -/
def DateHandler.subtract_interval (h : DateHandler) (date_value : Date) (cadence : Int) : Date :=
  match h.root with
  | .day => DayInterval.subtract_interval date_value cadence
  | .week => WeekInterval.subtract_interval date_value cadence
  | .month => MonthInterval.subtract_interval date_value cadence
  | .year => YearInterval.subtract_interval date_value cadence

/-- The factory's `time_bucket_mapping` table (src/date_managers.py,
lines 285-290). -/
def time_bucket_mapping : List (RootBucket × List String) :=
  [(.day, ["day", "yesterday", "today"]),
   (.week, ["week", "weekly", "last_week", "this_week"]),
   (.month, ["month", "monthly", "last_month", "this_month"]),
   (.year, ["year", "yearly", "last_year", "this_year"])]

/-- Embeds `DateHandlerFactory.get_date_handler` (src/date_managers.py,
lines 272-305): the linear scan keeps the last matching unit (the spelling
lists are disjoint, so at most one matches). -/
def DateHandlerFactory.get_date_handler (time_bucket : String) (cadence : Int) :
    Except PyErr DateHandler :=
  match (time_bucket_mapping.filter fun p => decide (time_bucket ∈ p.2)).getLast? with
  | none => .error .timeBucketError
  | some p => .ok ⟨p.1, time_bucket, cadence⟩

/-- Does `re.search(r"\d{4}\-\d{2}\-\d{2}", s)` match starting at this
position. -/
def ymdPatternAt : List Char → Bool
  | a :: b :: c :: d :: '-' :: e :: f :: '-' :: g :: h :: _ =>
    a.isDigit && b.isDigit && c.isDigit && d.isDigit &&
    e.isDigit && f.isDigit && g.isDigit && h.isDigit
  | _ => false

/-- Does `re.search(r"\d{4}\-\d{2}\-\d{2}", s)` match anywhere (substring
search, not a full match). -/
def containsYmdPattern : List Char → Bool
  | [] => false
  | c :: rest => ymdPatternAt (c :: rest) || containsYmdPattern rest

/-- The `%m` field of CPython `strptime`: regex `1[0-2]|0[1-9]|[1-9]`,
alternatives tried in order, returning the value and the rest. -/
def strptimeMonth : List Char → Option (Int × List Char)
  | a :: b :: rest =>
    if a = '1' ∧ '0' ≤ b ∧ b ≤ '2' then some (10 + digitVal b, rest)
    else if a = '0' ∧ '1' ≤ b ∧ b ≤ '9' then some (digitVal b, rest)
    else if '1' ≤ a ∧ a ≤ '9' then some (digitVal a, b :: rest)
    else none
  | [a] => if '1' ≤ a ∧ a ≤ '9' then some (digitVal a, []) else none
  | [] => none

/-- The `%d` field of CPython `strptime`: regex `3[01]|[12]\d|0[1-9]|[1-9]`. -/
def strptimeDay : List Char → Option (Int × List Char)
  | a :: b :: rest =>
    if a = '3' ∧ ('0' ≤ b ∧ b ≤ '1') then some (30 + digitVal b, rest)
    else if ('1' ≤ a ∧ a ≤ '2') ∧ b.isDigit = true then some (10 * digitVal a + digitVal b, rest)
    else if a = '0' ∧ '1' ≤ b ∧ b ≤ '9' then some (digitVal b, rest)
    else if '1' ≤ a ∧ a ≤ '9' then some (digitVal a, b :: rest)
    else none
  | [a] => if '1' ≤ a ∧ a ≤ '9' then some (digitVal a, []) else none
  | [] => none

/-- CPython `datetime.strptime(s, "%Y-%m-%d")`: `%Y` is exactly four
digits, the whole string must be consumed, and the resulting numbers must
form a valid calendar date; otherwise `ValueError`. -/
def strptimeYmd (s : String) : Except PyErr Date :=
  match s.data with
  | a :: b :: c :: d :: '-' :: rest =>
    if a.isDigit && b.isDigit && c.isDigit && d.isDigit then
      let y := digitsVal [a, b, c, d]
      match strptimeMonth rest with
      | some (m, rest2) =>
        match rest2 with
        | '-' :: rest3 =>
          match strptimeDay rest3 with
          | some (dd, []) =>
            if 1 ≤ y ∧ dd ≤ daysInMonth y m then .ok ⟨y, m, dd⟩ else .error .valueError
          | _ => .error .valueError
        | _ => .error .valueError
      | none => .error .valueError
    else .error .valueError
  | _ => .error .valueError

/-- Embeds `date_string_handler` (src/date_managers.py, lines 308-328).
`datetime.now()` is passed in explicitly as `now`. -/
def date_string_handler (now : Date) (date_string : String) : Except PyErr Date :=
  if containsYmdPattern (pyStrip date_string.data) = true then
    strptimeYmd (pyStripStr date_string)
  else do
    let pc ← PastDatePhraseHandler.phrase_to_date date_string
    let handler ← DateHandlerFactory.get_date_handler pc.2 pc.1
    let start_date := handler.get_start_date now
    .ok (handler.subtract_interval start_date pc.1)

/-- The `while startdate <= enddate` loop of `date_range_iterator`
(src/date_managers.py, lines 360-368), with explicit fuel: `none` means the
fuel ran out before the loop condition failed, `some l` is the finished
list of yielded (start, end) pairs, still as dates. -/
def rangeLoop (handler : DateHandler) (cadence : Int) (end_inclusive : Bool)
    (enddate : Date) : Nat → Date → Date → Option (List (Date × Date))
  | 0, _, _ => none
  | fuel+1, startdate, next_end =>
    if Date.le startdate enddate then
      match rangeLoop handler cadence end_inclusive enddate fuel
          next_end (handler.add_interval next_end cadence) with
      | none => none
      | some rest =>
        some ((startdate, if end_inclusive then addDaysInt next_end (-1) else next_end) :: rest)
    else some []

/-- Zero-padded rendering of at most 4 digits. -/
def pad4 (n : Int) : String :=
  String.mk [Char.ofNat (48 + (n / 1000 % 10).toNat), Char.ofNat (48 + (n / 100 % 10).toNat),
    Char.ofNat (48 + (n / 10 % 10).toNat), Char.ofNat (48 + (n % 10).toNat)]

/-- Zero-padded rendering of at most 2 digits. -/
def pad2 (n : Int) : String :=
  String.mk [Char.ofNat (48 + (n / 10 % 10).toNat), Char.ofNat (48 + (n % 10).toNat)]

/-- `datetime.strftime(d, "%Y-%m-%d")`, the iterator's default
`time_format` (the only format the claims exercise). -/
def toIso (d : Date) : String := pad4 d.year ++ "-" ++ pad2 d.month ++ "-" ++ pad2 d.day

/-- Embeds `date_range_iterator` (src/date_managers.py, lines 331-369) with
the default `time_format` and explicit `now` and fuel: `.ok none` means the
`while` loop was still running when the fuel ran out. -/
def date_range_iterator (now : Date) (start_date end_date interval : String)
    (end_inclusive : Bool) (fuel : Nat) :
    Except PyErr (Option (List (String × String))) := do
  let pc ← IntervalDatePhraseHandler.phrase_to_date interval
  let handler ← DateHandlerFactory.get_date_handler pc.2 pc.1
  let startdate0 ← date_string_handler now start_date
  let enddate ← date_string_handler now end_date
  let startdate := handler.get_start_date startdate0
  match rangeLoop handler pc.1 end_inclusive enddate fuel
      startdate (handler.add_interval startdate pc.1) with
  | none => .ok none
  | some l => .ok (some (l.map fun p => (toIso p.1, toIso p.2)))

/-- Termination of the iterator on given inputs: some amount of fuel lets
the `while` loop reach its exit condition. -/
def iteratorTerminates (now : Date) (start_date end_date interval : String)
    (end_inclusive : Bool) : Prop :=
  ∃ fuel out, date_range_iterator now start_date end_date interval end_inclusive fuel
    = .ok (some out)

/-! ### The second implementation (`date_range_handlers.py`)

Only its `YearInterval.add_interval` decides a claim: unlike the
`date_managers.py` version it implements the try/except documented in the
shared docstring, sending February 29 to March 1 of a non-leap destination
year. -/

/-- Embeds `YearInterval.add_interval` of src/date_range_handlers.py
(lines 86-99): `date_value.replace(year=date_value.year + cadence)`, and on
`ValueError` (the day does not exist in the destination year) the fallback
`date_value + (date(year + cadence, 1, 1) - date(year, 1, 1))`. -/
def DRH.YearInterval.add_interval (date_value : Date) (cadence : Int) : Date :=
  if date_value.day ≤ daysInMonth (date_value.year + cadence) date_value.month then
    ⟨date_value.year + cadence, date_value.month, date_value.day⟩
  else
    addDaysInt date_value
      (toOrd ⟨date_value.year + cadence, 1, 1⟩ - toOrd ⟨date_value.year, 1, 1⟩)

/-! ### Calendar lemmas -/

theorem isLeap_iff (y : Int) :
    isLeap y = true ↔ (y % 4 = 0 ∧ (y % 100 ≠ 0 ∨ y % 400 = 0)) := by
  simp [isLeap]

theorem daysInMonth_bounds (y m : Int) : 28 ≤ daysInMonth y m ∧ daysInMonth y m ≤ 31 := by
  unfold daysInMonth
  split_ifs <;> omega

theorem daysInMonth_ne_two (y y' m : Int) (h : m ≠ 2) :
    daysInMonth y m = daysInMonth y' m := by
  unfold daysInMonth
  split_ifs <;> omega

theorem daysInMonth_feb_le (y : Int) : daysInMonth y 2 ≤ 29 := by
  unfold daysInMonth
  split_ifs <;> omega

theorem dBY_step (y : Int) : dBY (y+1) = dBY y + 365 + (if isLeap y then 1 else 0) := by
  unfold dBY
  by_cases h : isLeap y = true
  · rw [if_pos h]
    rw [isLeap_iff] at h
    omega
  · rw [if_neg h]
    rw [isLeap_iff] at h
    omega

theorem dBY_nonneg (y : Int) (h : 1 ≤ y) : 0 ≤ dBY y := by
  unfold dBY
  omega

theorem dBY_one : dBY 1 = 0 := by decide

theorem dBY_gt_one (y : Int) (h1 : 1 ≤ y) (h2 : 0 < dBY y) : 2 ≤ y := by
  rcases Int.lt_or_le y 2 with h | h
  · have hy : y = 1 := by omega
    rw [hy, dBY_one] at h2
    omega
  · exact h

theorem dBY_mono (y : Int) : ∀ k : Nat, dBY y + 365 * k ≤ dBY (y + k)
  | 0 => by simp
  | k+1 => by
    have ih := dBY_mono y k
    have hs := dBY_step (y + k)
    have : ((k+1 : Nat) : Int) = (k : Int) + 1 := by push_cast; ring
    rw [this, ← add_assoc]
    split_ifs at hs <;> omega

theorem dBMbase_nonneg (m : Int) (h1 : 1 ≤ m) (h2 : m ≤ 12) : 0 ≤ dBMbase m := by
  interval_cases m <;> simp [dBMbase]

theorem dBM_nonneg (y m : Int) (h1 : 1 ≤ m) (h2 : m ≤ 12) : 0 ≤ dBM y m := by
  unfold dBM
  have := dBMbase_nonneg m h1 h2
  split_ifs <;> omega

theorem dBM_one (y : Int) : dBM y 1 = 0 := by
  unfold dBM dBMbase
  norm_num

theorem dBM_twelve (y : Int) : dBM y 12 = 334 + (if isLeap y then 1 else 0) := by
  unfold dBM dBMbase
  norm_num

theorem daysInMonth_twelve (y : Int) : daysInMonth y 12 = 31 := by
  unfold daysInMonth
  norm_num

theorem dBM_step (y m : Int) (h1 : 1 ≤ m) (h2 : m ≤ 11) :
    dBM y (m+1) = dBM y m + daysInMonth y m := by
  have hb := Bool.eq_false_or_eq_true (isLeap y)
  interval_cases m <;> rcases hb with hb | hb <;> simp [dBM, dBMbase, daysInMonth, hb]

theorem dBM_add_dim_le (y m : Int) (h1 : 1 ≤ m) (h2 : m ≤ 12) :
    dBM y m + daysInMonth y m ≤ 365 + (if isLeap y then 1 else 0) := by
  have hb := Bool.eq_false_or_eq_true (isLeap y)
  interval_cases m <;> rcases hb with hb | hb <;> simp [dBM, dBMbase, daysInMonth, hb]

theorem dBM_mono (y : Int) : ∀ (k : Nat) (m : Int), 1 ≤ m → m + k ≤ 12 →
    dBM y m + 28 * k ≤ dBM y (m + k)
  | 0, m, _, _ => by simp
  | k+1, m, h1, h2 => by
    have hc : ((k+1 : Nat) : Int) = (k : Int) + 1 := by push_cast; ring
    rw [hc] at h2 ⊢
    have ih := dBM_mono y k m h1 (by omega)
    have hs := dBM_step y (m + k) (by omega) (by omega)
    have hd := daysInMonth_bounds y (m + k)
    have : m + ((k : Int) + 1) = (m + k) + 1 := by ring
    rw [this]
    omega

theorem dBM_year_diff (y y' m : Int) :
    dBM y m - dBM y' m ≤ 1 ∧ dBM y' m - dBM y m ≤ 1 := by
  unfold dBM
  split_ifs <;> omega

/-! ### Ordinal versus lexicographic order -/

theorem toOrd_pos (d : Date) (h : d.valid) : 1 ≤ toOrd d := by
  obtain ⟨h1, h2, h3, h4, h5⟩ := h
  have hy := dBY_nonneg d.year h1
  have hm := dBM_nonneg d.year d.month h2 h3
  unfold toOrd
  omega

theorem toOrd_le_yearEnd (d : Date) (h : d.valid) : toOrd d ≤ dBY (d.year + 1) := by
  obtain ⟨h1, h2, h3, h4, h5⟩ := h
  have hs := dBY_step d.year
  have hl := dBM_add_dim_le d.year d.month h2 h3
  unfold toOrd
  split_ifs at hs hl <;> omega

theorem toOrd_lt_of_lt (a b : Date) (ha : a.valid) (hb : b.valid) (h : Date.lt a b) :
    toOrd a < toOrd b := by
  obtain ⟨a1, a2, a3, a4, a5⟩ := ha
  obtain ⟨b1, b2, b3, b4, b5⟩ := hb
  rcases h with hy | ⟨hy, hm | ⟨hm, hd⟩⟩
  · have hle : toOrd a ≤ dBY (a.year + 1) := toOrd_le_yearEnd a ⟨a1, a2, a3, a4, a5⟩
    obtain ⟨k, hk⟩ : ∃ k : Nat, b.year = a.year + 1 + k :=
      ⟨(b.year - a.year - 1).toNat, by omega⟩
    have hmono := dBY_mono (a.year + 1) k
    rw [← hk] at hmono
    have hnn := dBM_nonneg b.year b.month b2 b3
    have hcast : 0 ≤ 365 * (k : Int) := by positivity
    unfold toOrd at hle ⊢
    omega
  · have hstep := dBM_step a.year a.month a2 (by omega)
    obtain ⟨k, hk⟩ : ∃ k : Nat, b.month = a.month + 1 + k :=
      ⟨(b.month - a.month - 1).toNat, by omega⟩
    have hmono := dBM_mono a.year k (a.month + 1) (by omega) (by omega)
    rw [← hk] at hmono
    have hcast : 0 ≤ 28 * (k : Int) := by positivity
    unfold toOrd
    rw [← hy]
    omega
  · unfold toOrd
    rw [← hy, ← hm]
    omega

theorem Date.lt_of_not_le (a b : Date) (h : ¬ Date.le a b) : Date.lt b a := by
  unfold Date.le at h
  unfold Date.lt
  omega

theorem Date.eq_iff (a b : Date) :
    a = b ↔ a.year = b.year ∧ a.month = b.month ∧ a.day = b.day := by
  constructor
  · intro h
    rw [h]
    exact ⟨rfl, rfl, rfl⟩
  · intro ⟨h1, h2, h3⟩
    cases a
    cases b
    simp_all

theorem toOrd_le_of_le (a b : Date) (ha : a.valid) (hb : b.valid) (h : Date.le a b) :
    toOrd a ≤ toOrd b := by
  rcases eq_or_ne a b with rfl | hne
  · exact le_refl _
  · refine le_of_lt (toOrd_lt_of_lt a b ha hb ?_)
    have hne2 : ¬ (a.year = b.year ∧ a.month = b.month ∧ a.day = b.day) := by
      intro hc
      exact hne ((Date.eq_iff a b).2 hc)
    unfold Date.le at h
    unfold Date.lt
    omega

theorem le_iff_toOrd (a b : Date) (ha : a.valid) (hb : b.valid) :
    Date.le a b ↔ toOrd a ≤ toOrd b := by
  constructor
  · exact toOrd_le_of_le a b ha hb
  · intro h
    by_contra hn
    have := toOrd_lt_of_lt b a hb ha (Date.lt_of_not_le a b hn)
    omega

theorem Date.lt_of_toOrd_lt (a b : Date) (ha : a.valid) (hb : b.valid)
    (h : toOrd a < toOrd b) : Date.lt a b := by
  by_contra hn
  have hle : Date.le b a := by
    unfold Date.lt at hn
    unfold Date.le
    omega
  have := toOrd_le_of_le b a hb ha hle
  omega

theorem toOrd_inj (a b : Date) (ha : a.valid) (hb : b.valid)
    (h : toOrd a = toOrd b) : a = b := by
  by_contra hne
  have htri : Date.lt a b ∨ a = b ∨ Date.lt b a := by
    rcases eq_or_ne a b with heq | hne2
    · exact Or.inr (Or.inl heq)
    · have hne3 : ¬ (a.year = b.year ∧ a.month = b.month ∧ a.day = b.day) := by
        intro hc
        exact hne2 ((Date.eq_iff a b).2 hc)
      unfold Date.lt
      omega
  rcases htri with hlt | heq | hlt
  · have := toOrd_lt_of_lt a b ha hb hlt
    omega
  · exact hne heq
  · have := toOrd_lt_of_lt b a hb ha hlt
    omega

/-! ### Day stepping -/

theorem nextDay_valid (d : Date) (h : d.valid) : (nextDay d).valid := by
  obtain ⟨h1, h2, h3, h4, h5⟩ := h
  have hb1 := daysInMonth_bounds d.year (d.month + 1)
  have hb2 := daysInMonth_bounds (d.year + 1) 1
  unfold nextDay
  split_ifs with hlt hm <;> unfold Date.valid <;> dsimp only <;> omega

theorem toOrd_nextDay (d : Date) (h : d.valid) : toOrd (nextDay d) = toOrd d + 1 := by
  obtain ⟨h1, h2, h3, h4, h5⟩ := h
  unfold nextDay
  split_ifs with hlt hm
  · unfold toOrd
    dsimp only
    omega
  · have hstep := dBM_step d.year d.month h2 (by omega)
    unfold toOrd
    dsimp only
    omega
  · have hm12 : d.month = 12 := by omega
    have h31 := daysInMonth_twelve d.year
    have hs := dBY_step d.year
    have h12 := dBM_twelve d.year
    have h1' := dBM_one (d.year + 1)
    unfold toOrd
    dsimp only
    rw [hm12] at h5 hlt ⊢
    split_ifs at hs h12 <;> omega

theorem prevDay_nextDay (d : Date) (h : d.valid) : prevDay (nextDay d) = d := by
  obtain ⟨h1, h2, h3, h4, h5⟩ := h
  have h31 := daysInMonth_twelve d.year
  unfold nextDay
  split_ifs with hlt hm <;> unfold prevDay <;> dsimp only
  · rw [if_pos (by omega)]
    rw [Date.eq_iff]
    dsimp only
    omega
  · rw [if_neg (by omega), if_pos (by omega)]
    rw [Date.eq_iff]
    dsimp only
    have hmm : d.month + 1 - 1 = d.month := by omega
    rw [hmm]
    omega
  · have hm12 : d.month = 12 := by omega
    rw [hm12] at h5 hlt
    rw [if_neg (by omega), if_neg (by omega)]
    rw [Date.eq_iff]
    dsimp only
    omega

theorem addDays_valid_toOrd (d : Date) (h : d.valid) :
    ∀ n : Nat, (addDays d n).valid ∧ toOrd (addDays d n) = toOrd d + n
  | 0 => ⟨h, by simp [addDays]⟩
  | n+1 => by
    obtain ⟨hv, ho⟩ := addDays_valid_toOrd d h n
    refine ⟨nextDay_valid _ hv, ?_⟩
    have hn := toOrd_nextDay _ hv
    show toOrd (nextDay (addDays d n)) = _
    push_cast
    omega

theorem subDays_succ_comm (d : Date) : ∀ n : Nat, subDays d (n+1) = subDays (prevDay d) n
  | 0 => rfl
  | n+1 => by
    show prevDay (subDays d (n+1)) = _
    rw [subDays_succ_comm d n]
    rfl

theorem subDays_addDays (d : Date) (h : d.valid) : ∀ n : Nat, subDays (addDays d n) n = d
  | 0 => rfl
  | n+1 => by
    have hv := (addDays_valid_toOrd d h n).1
    show subDays (nextDay (addDays d n)) (n+1) = d
    rw [subDays_succ_comm, prevDay_nextDay _ hv]
    exact subDays_addDays d h n

theorem prevDay_valid_toOrd (d : Date) (h : d.valid) (h2 : 1 < toOrd d) :
    (prevDay d).valid ∧ toOrd (prevDay d) = toOrd d - 1 := by
  obtain ⟨h1, hm1, hm2, hd1, hd2⟩ := h
  unfold prevDay
  split_ifs with ha hb
  · constructor
    · unfold Date.valid
      dsimp only
      omega
    · unfold toOrd
      dsimp only
      omega
  · have hstep := dBM_step d.year (d.month - 1) (by omega) (by omega)
    have hbnd := daysInMonth_bounds d.year (d.month - 1)
    have hmm : d.month - 1 + 1 = d.month := by omega
    rw [hmm] at hstep
    constructor
    · unfold Date.valid
      dsimp only
      omega
    · unfold toOrd
      dsimp only
      omega
  · have hmm : d.month = 1 := by omega
    have hdd : d.day = 1 := by omega
    have h1' := dBM_one d.year
    have hy2 : 2 ≤ d.year := by
      refine dBY_gt_one d.year h1 ?_
      unfold toOrd at h2
      rw [hmm] at h2
      omega
    have hs := dBY_step (d.year - 1)
    have h12 := dBM_twelve (d.year - 1)
    have h31 := daysInMonth_twelve (d.year - 1)
    have hyy : d.year - 1 + 1 = d.year := by omega
    rw [hyy] at hs
    constructor
    · unfold Date.valid
      dsimp only
      omega
    · unfold toOrd
      dsimp only
      rw [hmm, hdd]
      split_ifs at hs h12 <;> omega

theorem subDays_valid_toOrd (d : Date) (h : d.valid) :
    ∀ k : Nat, (k : Int) < toOrd d →
      (subDays d k).valid ∧ toOrd (subDays d k) = toOrd d - k
  | 0, _ => ⟨h, by simp [subDays]⟩
  | k+1, hk => by
    have hk' : (k : Int) < toOrd d := by push_cast at hk ⊢; omega
    obtain ⟨hv, ho⟩ := subDays_valid_toOrd d h k hk'
    have hgt : 1 < toOrd (subDays d k) := by push_cast at hk; omega
    obtain ⟨hv2, ho2⟩ := prevDay_valid_toOrd _ hv hgt
    refine ⟨hv2, ?_⟩
    show toOrd (prevDay (subDays d k)) = _
    push_cast
    omega

theorem addDaysInt_nonneg (d : Date) (h : d.valid) (n : Int) (hn : 0 ≤ n) :
    (addDaysInt d n).valid ∧ toOrd (addDaysInt d n) = toOrd d + n := by
  unfold addDaysInt
  rw [if_pos hn]
  have := addDays_valid_toOrd d h n.toNat
  have hc : ((n.toNat : Nat) : Int) = n := by omega
  rw [hc] at this
  exact this

/-! ### Month and year arithmetic -/

theorem monthStart_step (t : Int) :
    monthStart (t+1) = monthStart t + daysInMonth (t / 12) (t % 12 + 1) := by
  have h0 : 0 ≤ t % 12 := Int.emod_nonneg t (by norm_num)
  have h1 : t % 12 < 12 := Int.emod_lt_of_pos t (by norm_num)
  rcases Int.lt_or_le (t % 12) 11 with hr | hr
  · have hq : (t+1) / 12 = t / 12 := by omega
    have hm : (t+1) % 12 = t % 12 + 1 := by omega
    unfold monthStart
    rw [hq, hm]
    have hstep := dBM_step (t / 12) (t % 12 + 1) (by omega) (by omega)
    omega
  · have hr11 : t % 12 = 11 := by omega
    have hq : (t+1) / 12 = t / 12 + 1 := by omega
    have hm : (t+1) % 12 = 0 := by omega
    unfold monthStart
    rw [hq, hm, hr11]
    have hs := dBY_step (t / 12)
    have h12 := dBM_twelve (t / 12)
    have h1' := dBM_one (t / 12 + 1)
    have h31 := daysInMonth_twelve (t / 12)
    norm_num
    split_ifs at hs h12 <;> omega

theorem monthStart_mono (t : Int) : ∀ k : Nat, monthStart t + 28 * k ≤ monthStart (t + k)
  | 0 => by simp
  | k+1 => by
    have ih := monthStart_mono t k
    have hs := monthStart_step (t + k)
    have hb := daysInMonth_bounds ((t + k) / 12) ((t + k) % 12 + 1)
    have hc : ((k+1 : Nat) : Int) = (k : Int) + 1 := by push_cast; ring
    rw [hc, ← add_assoc]
    omega

theorem toOrd_eq_monthStart (d : Date) (h2 : 1 ≤ d.month) (h3 : d.month ≤ 12) :
    toOrd d = monthStart (12 * d.year + (d.month - 1)) + d.day := by
  have hq : (12 * d.year + (d.month - 1)) / 12 = d.year := by omega
  have hm : (12 * d.year + (d.month - 1)) % 12 = d.month - 1 := by omega
  unfold monthStart toOrd
  rw [hq, hm]
  have hmm : d.month - 1 + 1 = d.month := by omega
  rw [hmm]

theorem addMonths_spec (d : Date) (hv : d.valid) (c : Int) (hc : 1 ≤ c) :
    (addMonths d c).valid ∧ toOrd d < toOrd (addMonths d c) := by
  obtain ⟨h1, h2, h3, h4, h5⟩ := hv
  have hbnd := daysInMonth_bounds ((12 * d.year + (d.month - 1) + c) / 12)
    ((12 * d.year + (d.month - 1) + c) % 12 + 1)
  have hvnew : (addMonths d c).valid := by
    unfold addMonths Date.valid
    dsimp only
    omega
  refine ⟨hvnew, ?_⟩
  have hord0 := toOrd_eq_monthStart d h2 h3
  have hordnew := toOrd_eq_monthStart (addMonths d c) (by unfold addMonths; dsimp only; omega)
    (by unfold addMonths; dsimp only; omega)
  have hms : 12 * (addMonths d c).year + ((addMonths d c).month - 1)
      = 12 * d.year + (d.month - 1) + c := by
    unfold addMonths
    dsimp only
    omega
  rw [hms] at hordnew
  obtain ⟨k, hk⟩ : ∃ k : Nat, 12 * d.year + (d.month - 1) + c
      = (12 * d.year + (d.month - 1) + 1) + k := ⟨(c - 1).toNat, by omega⟩
  have hmono := monthStart_mono (12 * d.year + (d.month - 1) + 1) k
  rw [← hk] at hmono
  have hstep := monthStart_step (12 * d.year + (d.month - 1))
  have hq : (12 * d.year + (d.month - 1)) / 12 = d.year := by omega
  have hm : (12 * d.year + (d.month - 1)) % 12 = d.month - 1 := by omega
  rw [hq, hm] at hstep
  have hmm : d.month - 1 + 1 = d.month := by omega
  rw [hmm] at hstep
  have hday : 1 ≤ (addMonths d c).day := by
    unfold addMonths
    dsimp only
    omega
  have hcast : 0 ≤ 28 * (k : Int) := by positivity
  omega

theorem addYears_spec (d : Date) (hv : d.valid) (c : Int) (hc : 1 ≤ c) :
    (addYears d c).valid ∧ toOrd d < toOrd (addYears d c) := by
  obtain ⟨h1, h2, h3, h4, h5⟩ := hv
  have hbnd := daysInMonth_bounds (d.year + c) d.month
  have hvnew : (addYears d c).valid := by
    unfold addYears Date.valid
    dsimp only
    omega
  refine ⟨hvnew, ?_⟩
  have hdaylb : d.day - 1 ≤ min d.day (daysInMonth (d.year + c) d.month) := by
    rcases eq_or_ne d.month 2 with hm2 | hm2
    · have hfle := daysInMonth_feb_le d.year
      rw [hm2] at h5 ⊢
      have hbnd2 := daysInMonth_bounds (d.year + c) 2
      omega
    · have heq := daysInMonth_ne_two d.year (d.year + c) d.month hm2
      omega
  obtain ⟨k, hk⟩ : ∃ k : Nat, d.year + c = (d.year + 1) + k := ⟨(c - 1).toNat, by omega⟩
  have hmono := dBY_mono (d.year + 1) k
  rw [← hk] at hmono
  have hstep := dBY_step d.year
  have hdiff := dBM_year_diff d.year (d.year + c) d.month
  have hcast : 0 ≤ 365 * (k : Int) := by positivity
  unfold addYears toOrd
  dsimp only
  split_ifs at hstep <;> omega

/-! ### Strategy-level facts -/

theorem weekday_bounds (d : Date) : 0 ≤ weekday d ∧ weekday d < 7 :=
  ⟨Int.emod_nonneg _ (by norm_num), Int.emod_lt_of_pos _ (by norm_num)⟩

theorem handler_add_spec (hd : DateHandler) (c : Int) (hc : 1 ≤ c) (d : Date) (hv : d.valid) :
    (hd.add_interval d c).valid ∧ toOrd d < toOrd (hd.add_interval d c) := by
  obtain ⟨root, tb, k⟩ := hd
  cases root <;> unfold DateHandler.add_interval <;> dsimp only
  · unfold DayInterval.add_interval
    have hs := addDaysInt_nonneg d hv c (by omega)
    exact ⟨hs.1, by omega⟩
  · unfold WeekInterval.add_interval
    have hs := addDaysInt_nonneg d hv (7 * c) (by omega)
    exact ⟨hs.1, by omega⟩
  · unfold MonthInterval.add_interval
    exact addMonths_spec d hv c hc
  · unfold YearInterval.add_interval
    exact addYears_spec d hv c hc

theorem get_start_date_valid (hd : DateHandler) (d : Date) (hv : d.valid)
    (h7 : 7 < toOrd d) : (hd.get_start_date d).valid := by
  obtain ⟨root, tb, k⟩ := hd
  cases root <;> unfold DateHandler.get_start_date <;> dsimp only
  · exact hv
  · unfold WeekInterval.get_start_date
    split_ifs with hmem hsun
    · exact hv
    · have hw := weekday_bounds d
      unfold addDaysInt
      rw [if_neg (by omega)]
      refine (subDays_valid_toOrd d hv _ ?_).1
      have : ((-(-(weekday d + 1))).toNat : Int) = weekday d + 1 := by omega
      rw [this]
      omega
    · exact hv
  · unfold MonthInterval.get_start_date
    have hbnd := daysInMonth_bounds d.year d.month
    obtain ⟨h1, h2, h3, h4, h5⟩ := hv
    split_ifs
    · unfold Date.valid
      dsimp only
      omega
    · exact ⟨h1, h2, h3, h4, h5⟩
  · unfold YearInterval.get_start_date
    have hbnd := daysInMonth_bounds d.year 1
    obtain ⟨h1, h2, h3, h4, h5⟩ := hv
    split_ifs
    · unfold Date.valid
      dsimp only
      omega
    · exact ⟨h1, h2, h3, h4, h5⟩

/-! ### Loop termination -/

theorem rangeLoop_term (hd : DateHandler) (c : Int) (hc : 1 ≤ c) (incl : Bool)
    (endd : Date) (he : endd.valid) :
    ∀ (n : Nat) (start : Date), start.valid → (toOrd endd + 1 - toOrd start).toNat < n →
      ∃ r, rangeLoop hd c incl endd n start (hd.add_interval start c) = some r := by
  intro n
  induction n with
  | zero =>
    intro start hs hm
    exact absurd hm (by omega)
  | succ n ih =>
    intro start hs hm
    by_cases hle : Date.le start endd
    · have hord : toOrd start ≤ toOrd endd := (le_iff_toOrd start endd hs he).1 hle
      obtain ⟨hv', hlt'⟩ := handler_add_spec hd c hc start hs
      obtain ⟨r, hr⟩ := ih (hd.add_interval start c) hv' (by omega)
      refine ⟨(start, if incl then addDaysInt (hd.add_interval start c) (-1)
        else hd.add_interval start c) :: r, ?_⟩
      show rangeLoop hd c incl endd (n+1) start (hd.add_interval start c) = _
      simp only [rangeLoop]
      rw [if_pos hle, hr]
    · refine ⟨[], ?_⟩
      simp only [rangeLoop]
      rw [if_neg hle]

/-! ### Claim C2 -/

/-- Claim C2 (code bug): `YearInterval.add_interval` in `date_managers.py`
promises in its docstring that February 29 advances to March 1 of a
non-leap destination year, but its `relativedelta(years=cadence)`
implementation clamps to February 28: at the failing input
(2020-02-29, cadence 1) it returns 2021-02-28, while the
`date_range_handlers.py` implementation of the same method (which the
docstring and the claim describe) returns 2021-03-01. -/
theorem c2_feb29_year_add_evaluation :
    YearInterval.add_interval ⟨2020, 2, 29⟩ 1 = ⟨2021, 2, 28⟩
    ∧ DRH.YearInterval.add_interval ⟨2020, 2, 29⟩ 1 = ⟨2021, 3, 1⟩
    ∧ (⟨2021, 2, 28⟩ : Date) ≠ ⟨2021, 3, 1⟩ := by
  refine ⟨rfl, ?_, by decide⟩
  have hstep : DRH.YearInterval.add_interval ⟨2020, 2, 29⟩ 1 = addDaysInt ⟨2020, 2, 29⟩ 366 := by
    unfold DRH.YearInterval.add_interval
    rw [if_neg (by decide)]
    have h366 : toOrd ⟨(⟨2020, 2, 29⟩ : Date).year + 1, 1, 1⟩
        - toOrd ⟨(⟨2020, 2, 29⟩ : Date).year, 1, 1⟩ = 366 := by decide
    rw [h366]
  rw [hstep]
  have hv : (⟨2020, 2, 29⟩ : Date).valid := by decide
  obtain ⟨hva, hoa⟩ := addDaysInt_nonneg ⟨2020, 2, 29⟩ hv 366 (by norm_num)
  refine toOrd_inj _ _ hva (by decide) ?_
  rw [hoa]
  decide

/-! ### Claim C3 -/

/-- Claim C3, corrected: bare numeric-multiplier interval specs skip
alignment for the day, week and year units (their `get_start_date` is the
identity on the bare bucket words), and the `"2_year"` example emits the
single bucket ("2022-11-09", "2024-11-09"); the month unit is the
exception, settled by the counterexample theorem. -/
theorem c3_bare_multiplier_alignment :
    (∀ (tb : String) (d : Date), DayInterval.get_start_date tb d = d)
    ∧ (∀ d : Date, WeekInterval.get_start_date "week" d = d)
    ∧ (∀ d : Date, YearInterval.get_start_date "year" d = d)
    ∧ date_range_iterator ⟨2022, 1, 1⟩ "2022-11-09" "2022-11-15" "2_year" false 5
        = .ok (some [("2022-11-09", "2024-11-09")]) := by
  refine ⟨fun tb d => rfl, fun d => ?_, fun d => ?_, rfl⟩
  · unfold WeekInterval.get_start_date
    rw [if_neg (by decide)]
  · unfold YearInterval.get_start_date
    rw [if_neg (by decide)]

/-- Counterexample to claim C3 as stated: for the bare numeric-multiplier
spec "2_month" the iterator DOES align — the first emitted sub-range
starts at "2022-11-01", not at the resolved start date "2022-11-09",
because the bare word "month" is in `MonthInterval.get_start_date`'s
alignment list. -/
theorem c3_bare_month_aligns_cex :
    date_range_iterator ⟨2022, 1, 1⟩ "2022-11-09" "2022-11-15" "2_month" false 5
        = .ok (some [("2022-11-01", "2023-01-01")])
    ∧ ("2022-11-01" : String) ≠ "2022-11-09" := by
  refine ⟨rfl, by decide⟩

/-! ### Claim C8 -/

/-- Claim C8, corrected: the resolver parses "2022-11-14" directly, and
letter-free date-like inputs that do not contain the `\d{4}-\d{2}-\d{2}`
pattern ("2022/11/14", "14-11-2022") fail with `TypeError`; but an input
containing the pattern without being exactly a valid `YYYY-MM-DD` date
("2022-13-01") fails with the built-in `ValueError` from `strptime`,
not with `TypeError`. -/
theorem c8_resolver_patterns :
    (∀ now : Date, date_string_handler now "2022-11-14" = .ok ⟨2022, 11, 14⟩)
    ∧ (∀ now : Date, date_string_handler now "2022/11/14" = .error .typeError)
    ∧ (∀ now : Date, date_string_handler now "14-11-2022" = .error .typeError)
    ∧ (∀ now : Date, date_string_handler now "2022-13-01" = .error .valueError) :=
  ⟨fun _ => rfl, fun _ => rfl, fun _ => rfl, fun _ => rfl⟩

/-- Counterexample to claim C8 as stated: "2022-13-01" is a date-like
input that is not a recognized phrase, yet it fails with the built-in
`ValueError`, not with `TypeError` as the claim requires. -/
theorem c8_pattern_valueerror_cex :
    date_string_handler ⟨2022, 1, 1⟩ "2022-13-01" = .error .valueError
    ∧ PyErr.valueError ≠ PyErr.typeError := by
  refine ⟨rfl, by decide⟩

/-! ### Claim C9 -/

theorem rangeLoop_incl_map (hd : DateHandler) (c : Int) (endd : Date) :
    ∀ (fuel : Nat) (start next_end : Date),
      rangeLoop hd c true endd fuel start next_end
        = Option.map (List.map fun p => (p.1, addDaysInt p.2 (-1)))
            (rangeLoop hd c false endd fuel start next_end)
  | 0, _, _ => rfl
  | fuel+1, start, ne => by
    simp only [rangeLoop]
    by_cases hle : Date.le start endd
    · rw [if_pos hle, if_pos hle, rangeLoop_incl_map hd c endd fuel ne (hd.add_interval ne c)]
      cases rangeLoop hd c false endd fuel ne (hd.add_interval ne c) <;> simp
    · rw [if_neg hle, if_neg hle]
      simp

/-- Claim C9: with `end_inclusive` the iterator call
`iterate_range("2022-11-14", "2022-11-15", "1_day", end_inclusive=True)`
yields exactly ("2022-11-14","2022-11-14") then ("2022-11-15","2022-11-15")
and terminates; and in general the end-inclusive loop emits exactly the
exclusive boundaries shifted back one day. -/
theorem c9_one_day_inclusive_range :
    date_range_iterator ⟨2022, 1, 1⟩ "2022-11-14" "2022-11-15" "1_day" true 10
      = .ok (some [("2022-11-14", "2022-11-14"), ("2022-11-15", "2022-11-15")])
    ∧ ∀ (hd : DateHandler) (c : Int) (endd : Date) (fuel : Nat) (start next_end : Date),
        rangeLoop hd c true endd fuel start next_end
          = Option.map (List.map fun p => (p.1, addDaysInt p.2 (-1)))
              (rangeLoop hd c false endd fuel start next_end) :=
  ⟨rfl, rangeLoop_incl_map⟩

/-! ### Claim C1 -/

theorem bind_ok_reduce {ε : Type u} {α β : Type v} (a : α) (f : α → Except ε β) :
    (Except.ok a >>= f) = f a := rfl

theorem rangeLoop_zero_day (tb : String) (k : Int) (incl : Bool) (endd : Date) :
    ∀ (fuel : Nat) (s : Date), Date.le s endd →
      rangeLoop ⟨.day, tb, k⟩ 0 incl endd fuel s s = none
  | 0, _, _ => rfl
  | fuel+1, s, hle => by
    have hadd : (DateHandler.mk RootBucket.day tb k).add_interval s 0 = s := rfl
    simp only [rangeLoop]
    rw [if_pos hle, hadd, rangeLoop_zero_day tb k incl endd fuel s hle]

/-- Counterexample to claim C1 as stated: with the accepted interval spec
"0_day" (cadence 0) and a window where start equals end, the iterator's
`while` loop never advances `startdate` and never terminates: no amount of
fuel completes it. -/
theorem c1_zero_cadence_cex :
    ¬ iteratorTerminates ⟨2022, 1, 1⟩ "2022-11-14" "2022-11-14" "0_day" false := by
  rintro ⟨fuel, out, hout⟩
  have hred : date_range_iterator ⟨2022, 1, 1⟩ "2022-11-14" "2022-11-14" "0_day" false fuel
      = match rangeLoop ⟨RootBucket.day, "day", 0⟩ 0 false ⟨2022, 11, 14⟩ fuel
          ⟨2022, 11, 14⟩ ⟨2022, 11, 14⟩ with
        | none => .ok none
        | some l => .ok (some (l.map fun p => (toIso p.1, toIso p.2))) := rfl
  rw [hred, rangeLoop_zero_day "day" 0 false ⟨2022, 11, 14⟩ fuel ⟨2022, 11, 14⟩ (by decide)]
    at hout
  simp at hout

/-- Claim C1, corrected: for every parsed interval spec whose cadence is
at least 1, iteration is finite — once the parsing, factory and resolver
stages succeed and the resolved dates are valid calendar dates, some
finite fuel lets the `while` loop reach its exit condition (`startdate`
strictly grows each round and eventually exceeds the resolved end).
Cadence-0 specs such as "0_day" are the exception, settled by the
counterexample theorem. -/
theorem c1_iterator_terminates_for_positive_cadence
    (now : Date) (sd ed iv : String) (incl : Bool)
    (c : Int) (tb : String) (hd : DateHandler) (s e : Date)
    (h1 : IntervalDatePhraseHandler.phrase_to_date iv = .ok (c, tb))
    (h2 : 1 ≤ c)
    (h3 : DateHandlerFactory.get_date_handler tb c = .ok hd)
    (h4 : date_string_handler now sd = .ok s)
    (h5 : date_string_handler now ed = .ok e)
    (h6 : s.valid) (h7 : e.valid) (h8 : 7 < toOrd s) :
    iteratorTerminates now sd ed iv incl := by
  have hsv : (hd.get_start_date s).valid := get_start_date_valid hd s h6 h8
  obtain ⟨r, hr⟩ := rangeLoop_term hd c h2 incl e h7
    ((toOrd e + 1 - toOrd (hd.get_start_date s)).toNat + 1) (hd.get_start_date s) hsv
    (by omega)
  refine ⟨(toOrd e + 1 - toOrd (hd.get_start_date s)).toNat + 1,
    r.map fun p => (toIso p.1, toIso p.2), ?_⟩
  unfold date_range_iterator
  rw [h1]
  simp only [bind_ok_reduce]
  rw [h3]
  simp only [bind_ok_reduce]
  rw [h4]
  simp only [bind_ok_reduce]
  rw [h5]
  simp only [bind_ok_reduce]
  rw [hr]

/-- Witness for claim C1's theorem at a concrete input: the window
2022-11-14 .. 2022-11-15 with interval "1_day". -/
theorem c1_witness :
    iteratorTerminates ⟨2022, 1, 1⟩ "2022-11-14" "2022-11-15" "1_day" true :=
  c1_iterator_terminates_for_positive_cadence ⟨2022, 1, 1⟩ "2022-11-14" "2022-11-15"
    "1_day" true 1 "day" ⟨.day, "day", 1⟩ ⟨2022, 11, 14⟩ ⟨2022, 11, 15⟩
    rfl (by norm_num) rfl rfl rfl (by decide) (by decide) (by decide)

/-! ### Claim C5 -/

theorem addMonths_fields (d : Date) (n : Int) :
    (addMonths d n).year = (12 * d.year + (d.month - 1) + n) / 12
    ∧ (addMonths d n).month = (12 * d.year + (d.month - 1) + n) % 12 + 1
    ∧ (addMonths d n).day = min d.day
        (daysInMonth ((12 * d.year + (d.month - 1) + n) / 12)
          ((12 * d.year + (d.month - 1) + n) % 12 + 1)) :=
  ⟨rfl, rfl, rfl⟩

theorem addYears_fields (d : Date) (n : Int) :
    (addYears d n).year = d.year + n
    ∧ (addYears d n).month = d.month
    ∧ (addYears d n).day = min d.day (daysInMonth (d.year + n) d.month) :=
  ⟨rfl, rfl, rfl⟩

theorem day_round_trip (d : Date) (hv : d.valid) (n : Int) (hn : 1 ≤ n) :
    DayInterval.subtract_interval (DayInterval.add_interval d n) n = d := by
  unfold DayInterval.subtract_interval DayInterval.add_interval addDaysInt
  rw [if_pos (by omega : (0:Int) ≤ n), if_neg (by omega : ¬ (0:Int) ≤ -n), neg_neg]
  exact subDays_addDays d hv n.toNat

theorem week_round_trip (d : Date) (hv : d.valid) (n : Int) (hn : 1 ≤ n) :
    WeekInterval.subtract_interval (WeekInterval.add_interval d n) n = d := by
  unfold WeekInterval.subtract_interval WeekInterval.add_interval addDaysInt
  rw [if_pos (by omega : (0:Int) ≤ 7 * n), if_neg (by omega : ¬ (0:Int) ≤ -(7 * n)), neg_neg]
  exact subDays_addDays d hv (7 * n).toNat

theorem month_round_trip (d : Date) (hv : d.valid) (n : Int)
    (hnc : d.day ≤ daysInMonth (MonthInterval.add_interval d n).year
      (MonthInterval.add_interval d n).month) :
    MonthInterval.subtract_interval (MonthInterval.add_interval d n) n = d := by
  obtain ⟨h1, h2, h3, h4, h5⟩ := hv
  unfold MonthInterval.subtract_interval MonthInterval.add_interval at *
  obtain ⟨hAy, hAm, hAd⟩ := addMonths_fields d n
  obtain ⟨hBy, hBm, hBd⟩ := addMonths_fields (addMonths d n) (-n)
  rw [← hAy, ← hAm] at hAd
  have hAday : (addMonths d n).day = d.day := by
    rw [hAd]
    exact min_eq_left hnc
  have he : 12 * (addMonths d n).year + ((addMonths d n).month - 1) + -n
      = 12 * d.year + (d.month - 1) := by
    rw [hAy, hAm]
    omega
  rw [he] at hBy hBm hBd
  have e2 : (12 * d.year + (d.month - 1)) / 12 = d.year := by omega
  have e3 : (12 * d.year + (d.month - 1)) % 12 + 1 = d.month := by omega
  rw [e2] at hBy hBd
  rw [e3] at hBm hBd
  rw [Date.eq_iff]
  refine ⟨hBy, hBm, ?_⟩
  rw [hBd, hAday]
  exact min_eq_left h5

theorem year_round_trip (d : Date) (hv : d.valid) (n : Int)
    (hexc : ¬ (d.month = 2 ∧ d.day = 29 ∧ isLeap (d.year + n) = false)) :
    YearInterval.subtract_interval (YearInterval.add_interval d n) n = d := by
  obtain ⟨h1, h2, h3, h4, h5⟩ := hv
  unfold YearInterval.subtract_interval YearInterval.add_interval at *
  have hd' : d.day ≤ daysInMonth (d.year + n) d.month := by
    rcases eq_or_ne d.month 2 with hm2 | hm2
    · rw [hm2] at h5 ⊢
      have hfle := daysInMonth_feb_le d.year
      rcases Bool.eq_false_or_eq_true (isLeap (d.year + n)) with hlp | hlp
      · have h29 : daysInMonth (d.year + n) 2 = 29 := by
          simp [daysInMonth, hlp]
        omega
      · have hne29 : d.day ≠ 29 := by
          intro hd29
          exact hexc ⟨hm2, hd29, hlp⟩
        have h28 : daysInMonth (d.year + n) 2 = 28 := by
          simp [daysInMonth, hlp]
        omega
    · rw [← daysInMonth_ne_two d.year (d.year + n) d.month hm2]
      exact h5
  obtain ⟨hAy, hAm, hAd⟩ := addYears_fields d n
  obtain ⟨hBy, hBm, hBd⟩ := addYears_fields (addYears d n) (-n)
  have hAday : (addYears d n).day = d.day := by
    rw [hAd]
    exact min_eq_left hd'
  rw [hAy] at hBy hBd
  rw [hAm] at hBm hBd
  have he : d.year + n + -n = d.year := by omega
  rw [he] at hBy hBd
  rw [Date.eq_iff]
  refine ⟨hBy, hBm, ?_⟩
  rw [hBd, hAday]
  exact min_eq_left h5

/-- Claim C5, corrected: the add/subtract round-trip
`subtract_interval(add_interval(d, n), n) = d` holds unconditionally for
the Day and Week strategies; for the Year strategy it holds except in the
Feb-29 edge case the claim names; but for the Month strategy the Feb-29
cases are not the only exceptions — it holds only when no day clamping
occurs in the add (the day-of-month also survives months with fewer days,
see the counterexample at 2022-01-31). -/
theorem c5_round_trip (d : Date) (n : Int) (hv : d.valid) (hn : 1 ≤ n) :
    DayInterval.subtract_interval (DayInterval.add_interval d n) n = d
    ∧ WeekInterval.subtract_interval (WeekInterval.add_interval d n) n = d
    ∧ (d.day ≤ daysInMonth (MonthInterval.add_interval d n).year
         (MonthInterval.add_interval d n).month →
       MonthInterval.subtract_interval (MonthInterval.add_interval d n) n = d)
    ∧ (¬ (d.month = 2 ∧ d.day = 29 ∧ isLeap (d.year + n) = false) →
       YearInterval.subtract_interval (YearInterval.add_interval d n) n = d) :=
  ⟨day_round_trip d hv n hn, week_round_trip d hv n hn,
   month_round_trip d hv n, year_round_trip d hv n⟩

/-- Witness for claim C5's theorem at d = 2022-11-14, n = 1, with every
hypothesis discharged concretely. -/
theorem c5_witness :
    DayInterval.subtract_interval (DayInterval.add_interval ⟨2022, 11, 14⟩ 1) 1
      = ⟨2022, 11, 14⟩
    ∧ WeekInterval.subtract_interval (WeekInterval.add_interval ⟨2022, 11, 14⟩ 1) 1
      = ⟨2022, 11, 14⟩
    ∧ MonthInterval.subtract_interval (MonthInterval.add_interval ⟨2022, 11, 14⟩ 1) 1
      = ⟨2022, 11, 14⟩
    ∧ YearInterval.subtract_interval (YearInterval.add_interval ⟨2022, 11, 14⟩ 1) 1
      = ⟨2022, 11, 14⟩ := by
  have h := c5_round_trip ⟨2022, 11, 14⟩ 1 (by decide) (by norm_num)
  exact ⟨h.1, h.2.1, h.2.2.1 (by decide), h.2.2.2 (by decide)⟩

/-- Counterexample to claim C5 as stated: at d = 2022-01-31 (not a Feb-29
edge case) with n = 1, the Month strategy round-trip returns 2022-01-28,
not d. -/
theorem c5_month_clamp_cex :
    MonthInterval.subtract_interval (MonthInterval.add_interval ⟨2022, 1, 31⟩ 1) 1
      = ⟨2022, 1, 28⟩
    ∧ (⟨2022, 1, 28⟩ : Date) ≠ ⟨2022, 1, 31⟩
    ∧ ¬ ((⟨2022, 1, 31⟩ : Date).month = 2 ∧ (⟨2022, 1, 31⟩ : Date).day = 29) := by
  refine ⟨rfl, by decide, by decide⟩

/-! ### Claim C4 -/

/-- Claim C4: for the buckets "weekly", "last_week", "this_week",
`WeekInterval.get_start_date` returns d unchanged when d is a Sunday
(weekday 6), and otherwise returns a Sunday strictly before d at distance
at most 7 days — that is, the most recent Sunday strictly before d. -/
theorem c4_week_get_start_date (tb : String) (d : Date)
    (htb : tb ∈ ["weekly", "last_week", "this_week"])
    (hv : d.valid) (h7 : 7 < toOrd d) :
    (weekday d = 6 → WeekInterval.get_start_date tb d = d)
    ∧ (weekday d ≠ 6 →
        weekday (WeekInterval.get_start_date tb d) = 6
        ∧ Date.lt (WeekInterval.get_start_date tb d) d
        ∧ toOrd d - toOrd (WeekInterval.get_start_date tb d) ≤ 7) := by
  unfold WeekInterval.get_start_date
  rw [if_pos htb]
  constructor
  · intro h6
    rw [if_pos h6]
  · intro hn6
    rw [if_neg hn6]
    have hwb := weekday_bounds d
    unfold addDaysInt
    rw [if_neg (by omega), neg_neg]
    have hk : (((weekday d + 1).toNat : Nat) : Int) = weekday d + 1 := by omega
    obtain ⟨hval, hord⟩ := subDays_valid_toOrd d hv (weekday d + 1).toNat (by omega)
    rw [hk] at hord
    refine ⟨?_, Date.lt_of_toOrd_lt _ _ hval hv (by omega), by omega⟩
    unfold weekday at hn6 hwb hord ⊢
    omega

/-- Witness for claim C4's theorem: Monday 2022-11-21 maps to Sunday
2022-11-20. -/
theorem c4_witness :
    WeekInterval.get_start_date "weekly" ⟨2022, 11, 21⟩ = ⟨2022, 11, 20⟩
    ∧ weekday ⟨2022, 11, 21⟩ = 0
    ∧ weekday (WeekInterval.get_start_date "weekly" ⟨2022, 11, 21⟩) = 6
    ∧ Date.lt (WeekInterval.get_start_date "weekly" ⟨2022, 11, 21⟩) ⟨2022, 11, 21⟩ := by
  have h := (c4_week_get_start_date "weekly" ⟨2022, 11, 21⟩ (by decide) (by decide)
    (by decide)).2 (by decide)
  exact ⟨by decide, by decide, h.1, h.2.1⟩

/-! ### Claim C10 -/

theorem pySplitAux_no_sep (sep : Char) :
    ∀ (l acc : List Char), (∀ c ∈ l, c ≠ sep) → pySplitAux sep l acc = [acc.reverse ++ l]
  | [], acc, _ => by simp [pySplitAux]
  | c :: rest, acc, hmem => by
    unfold pySplitAux
    rw [if_neg (hmem c (by simp))]
    rw [pySplitAux_no_sep sep rest (c :: acc) (fun x hx => hmem x (by simp [hx]))]
    simp

theorem containsChar_of_split_three (v a u w : String)
    (h : pySplitStr v '_' = [a, u, w]) : containsChar v '_' = true := by
  by_contra hc
  have hnone : ∀ c ∈ v.data, c ≠ '_' := by
    intro c hcmem heq
    apply hc
    unfold containsChar
    rw [List.any_eq_true]
    exact ⟨c, hcmem, by simp [heq]⟩
  unfold pySplitStr at h
  rw [pySplitAux_no_sep '_' v.data [] hnone] at h
  simp at h

/-- Claim C10: an input of the form `N_unit_ago` whose `N` is not
interpretable as an integer passes every grammar check of the past-phrase
parser and then fails at the final `int(...)` coercion with the built-in
`ValueError` — an error kind outside the five-kind taxonomy. -/
theorem c10_nonnumeric_ago_valueerror (s a u : String)
    (hletter : hasAsciiLetter (pyLower s.data) = true)
    (hlit1 : pyNormalize s ∉ ["yesterday", "last_week", "last_month", "last_year"])
    (hlit0 : pyNormalize s ∉ ["today", "this_week", "this_year", "this_month"])
    (hsplit : pySplitStr (pyNormalize s) '_' = [a, u, "ago"])
    (hnum : pyInt a = none) :
    PastDatePhraseHandler.phrase_to_date s = .error .valueError := by
  have hcontains := containsChar_of_split_three (pyNormalize s) a u "ago" hsplit
  unfold PastDatePhraseHandler.phrase_to_date
  rw [if_neg (by simp [hletter])]
  dsimp only
  rw [if_neg hlit1, if_neg hlit0]
  rw [if_pos (by exact ⟨hcontains, rfl⟩)]
  rw [hsplit]
  rw [if_neg (by simp)]
  dsimp only
  rw [hnum]

/-- Witness for claim C10's theorem at the concrete phrase
"two_weeks_ago". -/
theorem c10_witness :
    PastDatePhraseHandler.phrase_to_date "two_weeks_ago" = .error .valueError :=
  c10_nonnumeric_ago_valueerror "two_weeks_ago" "two" "weeks"
    rfl (by decide) (by decide) rfl rfl

/-! ### Claim C7 -/

/-- Claim C7, corrected: an input that splits on underscores into exactly
two parts (and passes the raw-input two-part check) parses to cadence =
`int(part 0)` and bucket = part 1 with no singularization; but the
space-separated two-part form is NOT parsed that way — it passes the
two-part check (which replaces spaces by underscores on the raw input)
and then crashes in tuple unpacking with a built-in `ValueError`, because
the assignment splits on underscores only (see the counterexample). -/
theorem c7_two_part_parse (s a b : String) (c : Int)
    (hletter : hasAsciiLetter (pyLower s.data) = true)
    (hlit : pyNormalize s ∉ ["day", "yearly", "weekly", "monthly"])
    (hraw : (pySplitStr (pyReplaceChar s ' ' '_') '_').length = 2)
    (hsplit : pySplitStr (pyNormalize s) '_' = [a, b])
    (hnum : pyInt a = some c) :
    IntervalDatePhraseHandler.phrase_to_date s = .ok (c, pyStripStr b) := by
  unfold IntervalDatePhraseHandler.phrase_to_date
  rw [if_neg (by simp [hletter])]
  dsimp only
  rw [if_neg hlit]
  rw [if_neg (by rw [hsplit]; simp)]
  rw [if_pos hraw]
  rw [hsplit]
  dsimp only
  rw [hnum]

/-- Witness for claim C7's theorem at the concrete spec "2_month". -/
theorem c7_witness :
    IntervalDatePhraseHandler.phrase_to_date "2_month" = .ok (2, "month") :=
  c7_two_part_parse "2_month" "2" "month" 2 rfl (by decide) rfl rfl rfl

/-- Counterexample to claim C7 as stated: the space-separated form
"2 month" splits on underscore-or-space into exactly two parts, yet the
parser raises the built-in `ValueError` (from tuple unpacking) instead of
returning (2, "month"). -/
theorem c7_space_split_cex :
    IntervalDatePhraseHandler.phrase_to_date "2 month" = .error .valueError
    ∧ (pySplitStr (pyReplaceChar "2 month" ' ' '_') '_').length = 2
    ∧ (Except.error PyErr.valueError
        ≠ (Except.ok (2, "month") : Except PyErr (Int × String))) := by
  refine ⟨rfl, rfl, fun hcontra => Except.noConfusion hcontra⟩

/-! ### Claim C6 -/

/-- Claim C6, corrected: the cadence returned by the past-phrase grammar
is 1 exactly for the yesterday/last_* literals, 0 for the today/this_*
literals, and otherwise it is `int(N)` for the first underscore segment N
of an `N_unit_ago` phrase — which need not be positive: "0_days_ago"
returns cadence 0 without being a this_* phrase, and "-2_days_ago"
returns a negative cadence (see the counterexample). -/
theorem c6_cadence_inversion (s b : String) (c : Int)
    (h : PastDatePhraseHandler.phrase_to_date s = .ok (c, b)) :
    (pyNormalize s ∈ ["yesterday", "last_week", "last_month", "last_year"] ∧ c = 1)
    ∨ (pyNormalize s ∈ ["today", "this_week", "this_year", "this_month"] ∧ c = 0)
    ∨ (∃ a u, pySplitStr (pyNormalize s) '_' = [a, u, "ago"] ∧ pyInt a = some c) := by
  unfold PastDatePhraseHandler.phrase_to_date at h
  by_cases hletter : hasAsciiLetter (pyLower s.data) = true
  · rw [if_neg (by simp [hletter])] at h
    dsimp only at h
    by_cases hlit1 : pyNormalize s ∈ ["yesterday", "last_week", "last_month", "last_year"]
    · rw [if_pos hlit1] at h
      dsimp only at h
      rw [if_neg (by simp)] at h
      dsimp only at h
      simp only [Except.ok.injEq, Prod.mk.injEq] at h
      exact Or.inl ⟨hlit1, h.1.symm⟩
    · rw [if_neg hlit1] at h
      by_cases hlit0 : pyNormalize s ∈ ["today", "this_week", "this_year", "this_month"]
      · rw [if_pos hlit0] at h
        dsimp only at h
        rw [if_neg (by simp)] at h
        dsimp only at h
        simp only [Except.ok.injEq, Prod.mk.injEq] at h
        exact Or.inr (Or.inl ⟨hlit0, h.1.symm⟩)
      · rw [if_neg hlit0] at h
        dsimp only at h
        by_cases hcond : containsChar (pyNormalize s) '_' = true
        · rw [if_pos ⟨hcond, rfl⟩] at h
          by_cases hbad : (pySplitStr (pyNormalize s) '_').length ≠ 3
              ∨ (pySplitStr (pyNormalize s) '_').get? 2 ≠ some "ago"
          · rw [if_pos hbad] at h
            exact absurd h (by simp)
          · rw [if_neg hbad] at h
            push_neg at hbad
            obtain ⟨hlen, hago⟩ := hbad
            obtain ⟨a, u, w, hp⟩ := List.length_eq_three.1 hlen
            rw [hp] at h hago
            have hw : w = "ago" := by simpa using hago
            subst hw
            dsimp only at h
            rcases hq : pyInt a with _ | n
            · rw [hq] at h
              exact absurd h (by simp)
            · rw [hq] at h
              simp only [Except.ok.injEq, Prod.mk.injEq] at h
              refine Or.inr (Or.inr ⟨a, u, hp, ?_⟩)
              rw [hq, h.1]
        · rw [if_neg (by simp [hcond])] at h
          dsimp only at h
          exact absurd h (by simp)
  · rw [if_pos (by simp [hletter])] at h
    exact absurd h (by simp)

/-- Witness for claim C6's theorem at the accepted phrase "0_days_ago",
whose cadence is 0. -/
theorem c6_witness :
    (pyNormalize "0_days_ago" ∈ ["yesterday", "last_week", "last_month", "last_year"]
      ∧ (0 : Int) = 1)
    ∨ (pyNormalize "0_days_ago" ∈ ["today", "this_week", "this_year", "this_month"]
      ∧ (0 : Int) = 0)
    ∨ (∃ a u, pySplitStr (pyNormalize "0_days_ago") '_' = [a, u, "ago"]
        ∧ pyInt a = some 0) :=
  c6_cadence_inversion "0_days_ago" "day" 0 rfl

/-- Counterexample to claim C6 as stated: "0_days_ago" is accepted and
returns cadence 0 although it is none of the four "today"/"this_*"
phrases, and "-2_days_ago" is accepted and returns the negative cadence
-2. -/
theorem c6_zero_and_negative_cadence_cex :
    PastDatePhraseHandler.phrase_to_date "0_days_ago" = .ok (0, "day")
    ∧ pyNormalize "0_days_ago" ∉ ["today", "this_week", "this_year", "this_month"]
    ∧ PastDatePhraseHandler.phrase_to_date "-2_days_ago" = .ok (-2, "day")
    ∧ (-2 : Int) < 0 := by
  refine ⟨rfl, by decide, rfl, by norm_num⟩

end DateManagers
